import Mathlib

/-!
Verification of the Phase query DSL and phase scheduler of the `upygame`
repository (files `src/utilities/reader.py`, `src/board/phase.py`,
`src/board/board.py`, `src/board/piece.py`).

The embedding models Python strings as `List Char` with hand-rolled,
fuel-bounded (hence kernel-computable) versions of the Python string
primitives the source uses (`str.split`, `str.split(sep)`, `str.strip`,
`str.replace`, `int(...)`, slicing).  Fallible Python code is modelled with
`Except PyErr` / `Option PyErr`: a `.error` value stands for an uncaught
Python exception, and partially mutated state is kept alongside it, the way
a Python object keeps mutations made before an exception propagated.

The pygame input snapshot (pressed keys / mouse / clock, read by
`Phase.__check_input`) is an external collaborator of the engine; it is
modelled as an oracle `check : Cond → Bool` giving the truth value of one
condition on the current tick.  The rendering window is a second external
collaborator that none of the modelled code inspects; it is dropped from
signatures.
-/

deriving instance DecidableEq for Except

/-- Python strings, modelled as their character lists. -/
abbrev Str := List Char

/-- Literal helper: the character list of a Lean string literal. -/
def chars (s : String) : Str := s.data

/-- The whitespace class used by Python `str.split()` / `str.strip()`
(ASCII part; the source never feeds non-ASCII whitespace). -/
def isPyWs (c : Char) : Bool :=
  c = ' ' || c = '\t' || c = '\n' || c = '\r' || c = '\x0b' || c = '\x0c'

/-- Strip characters satisfying `p` from both ends (Python `str.strip`). -/
def stripBy (p : Char → Bool) (s : Str) : Str :=
  ((s.dropWhile p).reverse.dropWhile p).reverse

/-- Python `query.strip('\n ')` as used by `read_input` (reader.py:51). -/
def pyStrip (s : Str) : Str := stripBy (fun c => c = '\n' || c = ' ') s

/-- Python `str.strip()` (full whitespace strip). -/
def pyStripAll (s : Str) : Str := stripBy isPyWs s

/-- Helper for `pySplitWs`: accumulate the current chunk (reversed). -/
def wsSplitAux (cur : Str) : Str → List Str
  | [] => [cur.reverse]
  | c :: rest =>
    if isPyWs c then cur.reverse :: wsSplitAux [] rest
    else wsSplitAux (c :: cur) rest

/-- Python `str.split()` with no argument: split on whitespace runs and
drop empty chunks. -/
def pySplitWs (s : Str) : List Str :=
  (wsSplitAux [] s).filter (fun t => t ≠ [])

/-- Decimal value of a digit run; `none` as soon as a non-digit appears. -/
def digitsValAux (acc : Nat) : Str → Option Nat
  | [] => some acc
  | c :: rest =>
    if c.isDigit then digitsValAux (acc * 10 + (c.toNat - 48)) rest
    else none

/-- Python `int(s)` for a `str` argument: strips whitespace, accepts an
optional sign followed by a non-empty digit run; `none` models the
`ValueError` raised otherwise. -/
def pyInt (s : Str) : Option Int :=
  match pyStripAll s with
  | [] => none
  | '+' :: rest =>
    if rest = [] then none else (digitsValAux 0 rest).map Int.ofNat
  | '-' :: rest =>
    if rest = [] then none else (digitsValAux 0 rest).map (fun n => -(n : Int))
  | cs => (digitsValAux 0 cs).map Int.ofNat

/-- Index of the first occurrence of `pat` in `s`, scanning left to right. -/
def findSub (pat : Str) : Str → Option Nat
  | [] => if pat = [] then some 0 else none
  | c :: rest =>
    if pat.isPrefixOf (c :: rest) then some 0
    else (findSub pat rest).map (· + 1)

/-- Fuel-bounded worker for `splitOnSub`; the fuel is only a termination
device and is always sufficient at the call site. -/
def splitOnSubFuel (sep : Str) : Nat → Str → List Str
  | 0, s => [s]
  | fuel + 1, s =>
    match findSub sep s with
    | none => [s]
    | some i => s.take i :: splitOnSubFuel sep fuel (s.drop (i + sep.length))

/-- Python `s.split(sep)` for a non-empty separator: split at every
non-overlapping occurrence, left to right. -/
def splitOnSub (sep s : Str) : List Str :=
  splitOnSubFuel sep (s.length + 1) s

/-- Fuel-bounded worker for `replaceSub`. -/
def replaceFuel (pat repl : Str) : Nat → Str → Str
  | 0, s => s
  | fuel + 1, s =>
    match findSub pat s with
    | none => s
    | some i =>
      s.take i ++ repl ++ replaceFuel pat repl fuel (s.drop (i + pat.length))

/-- Python `s.replace(pat, repl)`: replace every non-overlapping occurrence,
left to right, without rescanning the replacement text. -/
def replaceSub (pat repl s : Str) : Str :=
  replaceFuel pat repl (s.length + 1) s

/-- Whether `pat` occurs somewhere in `s` (Python `pat in s`). -/
def occursSub (pat s : Str) : Bool := (findSub pat s).isSome

/-- Lower-case one ASCII character (Python `str.lower`, restricted to the
letters the source compares against). -/
def lowerChar (c : Char) : Char :=
  if 'A' ≤ c && c ≤ 'Z' then Char.ofNat (c.toNat + 32) else c

/-- Python `str.lower()`. -/
def pyLower (s : Str) : Str := s.map lowerChar

/-- Uncaught Python exceptions of the modelled code.  `unmodelled` flags an
`exec`ed effect statement outside the statement family the claims exercise
(see `runEffect`). -/
inductive PyErr where
  | indexError
  | valueError
  | typeError
  | zeroDivisionError
  | sideAlreadySet
  | unmodelled
deriving DecidableEq, Repr

/-- A condition value after `read_input`: the raw token, converted to an
integer when Python `int(...)` succeeds on it (reader.py:70-71). -/
inductive InpVal where
  | int (n : Int)
  | str (s : Str)
deriving DecidableEq, Repr

/-- The `KEY_WORDS` table of reader.py:3-11, in dict insertion order. -/
def KEY_WORDS : List (Str × Str) :=
  [ (chars "UP", chars "BOARD.UP"),
    (chars "DOWN", chars "BOARD.DOWN"),
    (chars "RIGHT", chars "BOARD.RIGHT"),
    (chars "LEFT", chars "BOARD.LEFT"),
    (chars "PEACE[", chars "BOARD.pieces["),
    (chars "END", chars "BOARD.end_phase()") ]

/-- Python inherits arbitrary-size ints but `read_header` may also return
`float('inf')` (reader.py:18); a consumption budget is one of the two. -/
inductive PyNum where
  | int (n : Int)
  | inf
deriving DecidableEq, Repr

/-- Computes `x - 1` on a budget: `inf - 1 = inf` in Python float arithmetic. -/
def PyNum.sub1 : PyNum → PyNum
  | .int n => .int (n - 1)
  | .inf => .inf

/-- Tests `x < 0` on a budget (`inf < 0` is false). -/
def PyNum.lt0 : PyNum → Bool
  | .int n => decide (n < 0)
  | .inf => false

/-- Tests `x == 0` on a budget (`inf == 0` is false). -/
def PyNum.eq0 : PyNum → Bool
  | .int n => decide (n = 0)
  | .inf => false

/-- Models `read_header` (reader.py:16-18): `int(query.split()[0])`, with the
`ValueError` of a non-integer token caught and turned into `float('inf')`.
The `IndexError` of `[0]` on an empty token list is NOT caught. -/
def read_header (query : Str) : Except PyErr PyNum :=
  match pySplitWs query with
  | [] => .error .indexError
  | t :: _ =>
    match pyInt t with
    | some n => .ok (.int n)
    | none => .ok .inf

/-- Models `read_repeatability` (reader.py:76-83): second whitespace token if it is
one of `f F t T` (lower-cased); every exception is caught and yields `'t'`. -/
def read_repeatability (query : Str) : Str :=
  match (pySplitWs query).get? 1 with
  | some x =>
    if x = chars "f" || x = chars "F" || x = chars "t" || x = chars "T" then
      pyLower x
    else chars "t"
  | none => chars "t"

/-- Models `resolve(query, board, window)` (reader.py:20-27): the upfront
precondition check is an unimplemented TODO stub whose body is
`return True`; it inspects neither the query nor the board. -/
def resolve (_query : Str) (_board : α) : Bool := true

/-- The text before the first `->` of the stripped query
(`query.strip('\n ').split('->')[0]`, reader.py:51-52). -/
def firstSection (query : Str) : Str :=
  (splitOnSub (chars "->") (pyStrip query)).headD []

/-- The condition section: `first[len(number)+2:]` where `number` is the
first whitespace token of `first` (reader.py:53-54); `[]` when `first` has
no token (in which case `read_input` raises before slicing). -/
def condSection (query : Str) : Str :=
  match pySplitWs (firstSection query) with
  | [] => []
  | number :: _ => (firstSection query).drop (number.length + 2)

/-- AND-mode selector: `len(first.split('&&')) > 1` (reader.py:55,61). -/
def isAndQuery (query : Str) : Bool :=
  (splitOnSub (chars "&&") (condSection query)).length > 1

/-- The condition terms `read_input` loops over: the `&&`-chunks in
AND-mode, otherwise the `||`-chunks (reader.py:61-65). -/
def supportTerms (query : Str) : List Str :=
  if isAndQuery query then splitOnSub (chars "&&") (condSection query)
  else splitOnSub (chars "||") (condSection query)

/-- One iteration of the term loop (reader.py:67-72): strip, require exactly
two whitespace tokens (`ValueError` otherwise, from tuple unpacking), and
convert the value token with `int(...)` when that succeeds. -/
def parseTerm (t : Str) : Except PyErr (Str × InpVal) :=
  match pySplitWs (pyStripAll t) with
  | [k, v] =>
    .ok (k, match pyInt v with
            | some n => InpVal.int n
            | none => InpVal.str v)
  | _ => .error .valueError

/-- The term loop of reader.py:67-72 over all terms; the first malformed
term raises. -/
def parseTerms : List Str → Except PyErr (List (Str × InpVal))
  | [] => .ok []
  | t :: ts =>
    match parseTerm t with
    | .ok c => (parseTerms ts).map (fun cs => c :: cs)
    | .error e => .error e

/-- Models `read_input` (reader.py:50-74). -/
def read_input (query : Str) : Except PyErr (List (Str × InpVal) × Bool) :=
  match pySplitWs (firstSection query) with
  | [] => .error .indexError
  | _ :: _ => (parseTerms (supportTerms query)).map (fun cs => (cs, isAndQuery query))

/-- Models `read_output` (reader.py:85-93): the text between the first and second
`->`, stripped, with every `KEY_WORDS` entry substituted in table order.
The absence of `->` (an `IndexError` on `[1]`) is caught by the bare
`except` and re-raised as `ValueError("Invalid output")`.  The Python
function wraps the substituted text in a closure running `exec` on it; the
model returns the text, interpreted at fire time by `runEffect`. -/
def read_output (query : Str) : Except PyErr Str :=
  match (splitOnSub (chars "->") query).get? 1 with
  | none => .error .valueError
  | some t =>
    .ok (KEY_WORDS.foldl (fun acc kv => replaceSub kv.1 kv.2 acc) (pyStripAll t))

/-- A condition is the (kind, value) pair `read_input` produces
(phase.py:11, reader.py:72). -/
abbrev Cond := Str × InpVal

/-- The effect slot of a phase.  `Phase.null` installs `lambda *a, **k: ...`
(a genuine no-op); `Phase.from_query` installs `read_output`'s closure,
which `exec`s the substituted effect text (reader.py:91). -/
inductive Effect where
  | noop
  | pyExec (txt : Str)
deriving DecidableEq, Repr

/-- Models `Phase` (phase.py:9-24): configured conditions, combinator, effect,
budget, `__CT` backup and repeatability, plus the mutable run-state
`__consumption_times`, `__last_iteration`, `__active`. -/
structure Phase where
  conditions : List Cond
  andifying : Bool
  output : Effect
  consumption_times : PyNum
  CT : PyNum
  repeatable : Bool
  last_iteration : Bool
  active : Bool
deriving DecidableEq, Repr

/-- Loop body of `Phase.__bool__` (phase.py:58-70): `res` is the running
value; in AND-mode a false check breaks out with `False`, in OR-mode the
checks are or-ed together. -/
def phaseBoolGo (andifying : Bool) (check : Cond → Bool) (res : Bool) :
    List Cond → Bool
  | [] => res
  | c :: rest =>
    if andifying then
      if check c then phaseBoolGo andifying check true rest else false
    else phaseBoolGo andifying check (res || check c) rest

/-- Models `Phase.__bool__` (phase.py:58-70), with the pygame input snapshot
(`Phase.__check_input`, an external collaborator reading live key/mouse/
clock state) abstracted as the oracle `check`.  Note an empty condition
list yields `False` in either mode: the null phase never triggers. -/
def phaseBool (conds : List Cond) (andifying : Bool) (check : Cond → Bool) : Bool :=
  phaseBoolGo andifying check false conds

/-- Models `Phase.__execute` (phase.py:29-46).  Returns the updated phase, whether
the effect body was invoked on this tick, and whether `FinalRepException`
(the `PhaseComplete` signal) was raised.  The effect itself is interpreted
by the caller (`Board.execute`), which receives the fired flag. -/
def Phase.execute (p : Phase) (check : Cond → Bool) : Phase × Bool × Bool :=
  if phaseBool p.conditions p.andifying check = false then
    ({ p with last_iteration := false }, false, false)
  else if (!p.repeatable && p.last_iteration) = true then
    (p, false, false)
  else
    if p.consumption_times.sub1.lt0 = true then
      ({ p with consumption_times := p.consumption_times.sub1,
                active := false }, false, true)
    else if p.consumption_times.sub1.eq0 = true then
      ({ p with consumption_times := p.consumption_times.sub1,
                last_iteration := true }, true, true)
    else
      ({ p with consumption_times := p.consumption_times.sub1,
                last_iteration := true }, true, false)

/-- Models `Phase.init_phase` (phase.py:48-49): restore the budget from `__CT`.
No other field is touched. -/
def Phase.init_phase (p : Phase) : Phase :=
  { p with consumption_times := p.CT }

/-- Models `Phase.activate` (phase.py:51-52). -/
def Phase.activate (p : Phase) : Phase :=
  { p with active := true }

/-- Models `Phase.null` (phase.py:345-347): `cls([], lambda *a, **k: ..., 0,
andifying=True)` with the constructor defaults `repeatable=False`,
`__last_iteration=False`, `__active=False`. -/
def Phase.null : Phase :=
  { conditions := [], andifying := true, output := .noop,
    consumption_times := .int 0, CT := .int 0, repeatable := false,
    last_iteration := false, active := false }

/-- Models `Phase.from_query(query, window, board)` (phase.py:349-364): the
`resolve` gate (null phase when it fails), then the four readers in source
order (an uncaught reader exception propagates), then the constructor call
with `repeatable = (rep.lower() == 't')`. -/
def Phase.from_query (query : Str) (board : α) : Except PyErr Phase :=
  if resolve query board = false then .ok Phase.null
  else
    match read_header query with
    | .error e => .error e
    | .ok time =>
      let rep := read_repeatability query
      match read_input query with
      | .error e => .error e
      | .ok condsAnd =>
        match read_output query with
        | .error e => .error e
        | .ok acts =>
          .ok { conditions := condsAnd.1, andifying := condsAnd.2,
                output := .pyExec acts, consumption_times := time, CT := time,
                repeatable := pyLower rep = chars "t", last_iteration := false,
                active := false }

/-- Models `Piece` (piece.py:29-37): board position and owning side. -/
structure Piece where
  row : Int
  column : Int
  side : Option Int
deriving DecidableEq, Repr

/-- Models `Piece.move` (piece.py:55-57): translate by a step vector. -/
def Piece.move (p : Piece) (step : Int × Int) : Piece :=
  { p with row := p.row + step.1, column := p.column + step.2 }

/-- Models `Piece.set_side` (piece.py:51-53). -/
def Piece.set_side (p : Piece) (s : Int) : Piece :=
  { p with side := some s }

/-- The board direction constants (board.py:18-21). -/
def boardDir (s : Str) : Option (Int × Int) :=
  if s = chars "UP" then some (-1, 0)
  else if s = chars "DOWN" then some (1, 0)
  else if s = chars "RIGHT" then some (0, 1)
  else if s = chars "LEFT" then some (0, -1)
  else none

def movePieceHead : Str := chars "BOARD.pieces["
def movePieceMid : Str := chars "].move(BOARD."

/-- Recognise an effect statement of the family the claims' queries
produce: `BOARD.pieces[<digits>].move(BOARD.<DIR>)`, yielding the piece
index and the direction constant. -/
def parseMoveStmt (s : Str) : Option (Nat × (Int × Int)) :=
  if movePieceHead.isPrefixOf s then
    let r1 := s.drop movePieceHead.length
    let ds := r1.takeWhile Char.isDigit
    let r2 := r1.drop ds.length
    if ds ≠ [] && movePieceMid.isPrefixOf r2 then
      let r3 := r2.drop movePieceMid.length
      if r3.getLast? = some ')' then
        match digitsValAux 0 ds, boardDir r3.dropLast with
        | some i, some d => some (i, d)
        | _, _ => none
      else none
    else none
  else none

/-- Models the `Board` state (board.py:29-38) restricted to what the phase engine
reads and writes: pieces, sides, turn, the phase list (`__game_phases`)
and the current-phase index (`__cp`, never negative in the source). -/
structure BoardState where
  pieces : List Piece
  sides : List Int
  turn : Option Int
  game_phases : List Phase
  cp : Nat
deriving DecidableEq, Repr

/-- A board as `Board.__init__` leaves it: no phases, index 0; pieces,
sides and turn as accumulated by prior setup calls. -/
def BoardState.start (ps : List Piece) (ss : List Int) (t0 : Option Int) :
    BoardState :=
  { pieces := ps, sides := ss, turn := t0, game_phases := [], cp := 0 }

/-- The semantics of Python `exec` on an effect text, for the statement
family the claims' queries produce (`PEACE[i].move(DIR)` after the
`KEY_WORDS` substitution): move the indexed piece by the direction constant
(piece.py:55-57, board.py:18-21); an out-of-range index is the `IndexError`
of `board.pieces[i]`.  A statement outside this family is reported as
`unmodelled` rather than silently approximated. -/
def runEffect (e : Effect) (b : BoardState) : BoardState × Option PyErr :=
  match e with
  | .noop => (b, none)
  | .pyExec txt =>
    match parseMoveStmt txt with
    | some (i, d) =>
      match b.pieces.get? i with
      | some pc => ({ b with pieces := b.pieces.set i (pc.move d) }, none)
      | none => (b, some .indexError)
    | none => (b, some .unmodelled)

/-- Models `Board.add_piece` (board.py:137-152): reject an already-registered
side (`SideAlreadySetError`), else append the side, set `turn` on the first
registration, and append the pieces with their side set. -/
def BoardState.add_piece (b : BoardState) (side : Int) (ps : List Piece) :
    BoardState × Option PyErr :=
  if side ∈ b.sides then (b, some .sideAlreadySet)
  else
    let t := match b.turn with
             | none => some side
             | some t0 => some t0
    ({ b with sides := b.sides ++ [side], turn := t,
              pieces := b.pieces ++ ps.map (fun p => p.set_side side) }, none)

/-- Models `Board.add_phase` (board.py:154-156): append the parsed phase; a parse
exception propagates and nothing is appended. -/
def BoardState.add_phase (b : BoardState) (query : Str) :
    BoardState × Option PyErr :=
  match Phase.from_query query b with
  | .ok p => ({ b with game_phases := b.game_phases ++ [p] }, none)
  | .error e => (b, some e)

/-- Models `self.__game_phases[self.__cp].init_phase()` (board.py:170): an
`IndexError` when the index misses the list. -/
def BoardState.initCurrent (b : BoardState) : BoardState × Option PyErr :=
  match b.game_phases.get? b.cp with
  | none => (b, some .indexError)
  | some p =>
    ({ b with game_phases := b.game_phases.set b.cp p.init_phase }, none)

/-- Models `Board.end_phase` (board.py:165-170): bump the index; on passing the
end, reset it to 0 and set `turn = sides[(turn + 1) % len(sides)]` — note
the current turn VALUE is used as the index base.  `turn + 1` on an unset
turn is a `TypeError`; `% len(sides)` on an empty sides list is a
`ZeroDivisionError`; either way the index reset has already happened. -/
def BoardState.end_phase (b : BoardState) : BoardState × Option PyErr :=
  let cp1 := b.cp + 1
  if cp1 ≥ b.game_phases.length then
    let b1 := { b with cp := 0 }
    match b.turn with
    | none => (b1, some .typeError)
    | some t =>
      match b.sides with
      | [] => (b1, some .zeroDivisionError)
      | s0 :: ss =>
        let idx := ((t + 1) % ((s0 :: ss).length : Int)).toNat
        BoardState.initCurrent { b1 with turn := some ((s0 :: ss).getD idx 0) }
  else
    BoardState.initCurrent { b with cp := cp1 }

/-- The in-place mutation of the current phase object performed by calling
`self.__game_phases[self.__cp](...)` (board.py:161): the updated phase
replaces the old one at the current index. -/
def BoardState.setPhase (b : BoardState) (p : Phase) : BoardState :=
  { b with game_phases := b.game_phases.set b.cp p }

/-- The `try/except FinalRepException` of `Board.execute` (board.py:160-163):
an effect-level exception propagates; the completion signal is caught and
answered with `end_phase()`. -/
def BoardState.finishTick (bp : BoardState × Option PyErr) (raised : Bool) :
    BoardState × Bool × Option PyErr :=
  match bp.2 with
  | some e => (bp.1, false, some e)
  | none =>
    if raised then (bp.1.end_phase.1, true, bp.1.end_phase.2)
    else (bp.1, false, none)

/-- Models `Board.execute` (board.py:158-163): no-op on an empty phase list, else
run the current phase (its state mutations land first, then its effect
body), catching `FinalRepException` by calling `end_phase`.  Returns the
new state, whether `end_phase` was invoked on this tick, and any uncaught
exception. -/
def BoardState.execute (b : BoardState) (check : Cond → Bool) :
    BoardState × Bool × Option PyErr :=
  if b.game_phases.isEmpty then (b, false, none)
  else
    match b.game_phases.get? b.cp with
    | none => (b, false, some .indexError)
    | some p =>
      BoardState.finishTick
        (if (p.execute check).2.1 then
          runEffect p.output (b.setPhase (p.execute check).1)
        else (b.setPhase (p.execute check).1, none))
        (p.execute check).2.2

/-- Iterated ticks at phase level: the phase state after `n` condition
evaluations against a fixed input snapshot. -/
def Phase.iter (check : Cond → Bool) (p : Phase) : Nat → Phase
  | 0 => p
  | n + 1 => ((Phase.iter check p n).execute check).1

/-- Whether the effect body runs on tick `i` (0-indexed) of the drive. -/
def Phase.firedOn (check : Cond → Bool) (p : Phase) (i : Nat) : Bool :=
  ((Phase.iter check p i).execute check).2.1

/-- Whether `FinalRepException` is raised on tick `i` (0-indexed). -/
def Phase.raisedOn (check : Cond → Bool) (p : Phase) (i : Nat) : Bool :=
  ((Phase.iter check p i).execute check).2.2

/-- Iterated ticks at board level: the board after `n` calls to
`Board.execute` against a fixed input snapshot. -/
def BoardState.run (check : Cond → Bool) (b : BoardState) : Nat → BoardState
  | 0 => b
  | n + 1 => ((BoardState.run check b n).execute check).1

/-- Whether `end_phase` is invoked during tick `n` (1-indexed). -/
def BoardState.endPhaseOnTick (check : Cond → Bool) (b : BoardState) (n : Nat) :
    Bool :=
  ((BoardState.run check b (n - 1)).execute check).2.1

/-- Row of piece 0 after `n` board ticks (the placeholder piece is never
reached in the closed scenarios below). -/
def BoardState.rowAfter (check : Cond → Bool) (b : BoardState) (n : Nat) : Int :=
  ((BoardState.run check b n).pieces.getD 0 ⟨0, 0, none⟩).row

/-- One scheduler call of claim C9's reachable-state quantification. -/
inductive SchedOp where
  | add (q : Str)
  | exec (check : Cond → Bool)
  | endp

/-- Apply one scheduler call, keeping the (possibly partially mutated)
state also when the call raised, as the Python object does. -/
def SchedOp.apply (b : BoardState) : SchedOp → BoardState
  | .add q => (b.add_phase q).1
  | .exec check => (b.execute check).1
  | .endp => b.end_phase.1

/-- Input snapshot with only the key `k` pressed: exactly the condition
`("KEY", "k")` holds. -/
def chkK : Cond → Bool :=
  fun c => decide (c = (chars "KEY", InpVal.str (chars "k")))

/-- Input snapshot on which every condition holds. -/
def chkTrue : Cond → Bool := fun _ => true

/-- Input snapshot on which no condition holds. -/
def chkFalse : Cond → Bool := fun _ => false

/-- The concrete query of the claims' scenario. -/
def qC2 : Str := chars "2 T KEY k -> PEACE[0].move(UP)"

/-- A query referencing piece 9 of a two-piece board. -/
def qC6 : Str := chars "2 T KEY k -> PEACE[9].move(UP)"

/-- An AND-mode query with an integer and a symbolic condition value. -/
def qAnd : Str := chars "5 T KEY 7 && MOUSE left -> X"

/-- A query whose single condition term has one token instead of two. -/
def qBadTerm : Str := chars "2 T KEY -> X"

/-- The phase `Phase.from_query` builds for `qC2` (checked by evaluation in
the theorems below). -/
def pC2 : Phase :=
  { conditions := [(chars "KEY", .str (chars "k"))], andifying := false,
    output := .pyExec (chars "BOARD.pieces[0].move(BOARD.UP)"),
    consumption_times := .int 2, CT := .int 2, repeatable := true,
    last_iteration := false, active := false }

/-- The `f` (non-repeatable) variant of the scenario query. -/
def qC2f : Str := chars "2 F KEY k -> PEACE[0].move(UP)"

/-- The phase `Phase.from_query` builds for `qC2f` (checked by evaluation
in the theorems below). -/
def pC2f : Phase :=
  { conditions := [(chars "KEY", .str (chars "k"))], andifying := false,
    output := .pyExec (chars "BOARD.pieces[0].move(BOARD.UP)"),
    consumption_times := .int 2, CT := .int 2, repeatable := false,
    last_iteration := false, active := false }

/-- A directly-constructed non-repeatable phase with budget 5 that has not
fired yet. -/
def pOneShot : Phase :=
  { conditions := [(chars "KEY", .str (chars "k"))], andifying := false,
    output := .noop, consumption_times := .int 5, CT := .int 5,
    repeatable := false, last_iteration := false, active := false }

/-- State of `pOneShot` right after a fire: `last_iteration` is set. -/
def pOneShotFired : Phase := { pOneShot with last_iteration := true }

/-- The scenario board: one piece at row 4 on side 0, then the scenario
query registered through `add_phase`. -/
def bC2 : BoardState :=
  (((BoardState.start [] [] none).add_piece 0 [⟨4, 0, none⟩]).1.add_phase qC2).1

/-- A board with two registered pieces and no phases. -/
def boardTwoPieces : BoardState :=
  { pieces := [⟨0, 0, some 0⟩, ⟨0, 1, some 0⟩], sides := [0], turn := some 0,
    game_phases := [], cp := 0 }

/-- Scheduler with phases `[P0, P1]` and sides `[1, 2]`, side 1 active,
current phase 0. -/
def bSides12 : BoardState :=
  { pieces := [], sides := [1, 2], turn := some 1,
    game_phases := [Phase.null, Phase.null], cp := 0 }

/-- Scheduler with phases `[P0, P1]` and sides `[0, 1]`, side 0 active,
current phase index already at 1 (P0 completed). -/
def bSides01cp1 : BoardState :=
  { pieces := [], sides := [0, 1], turn := some 0,
    game_phases := [Phase.null, Phase.null], cp := 1 }

/-- The scheduler invariant of claim C9: the current-phase index addresses
the phase list, or the list is still empty and the index is 0. -/
def schedInv (b : BoardState) : Prop :=
  b.cp < b.game_phases.length ∨ (b.game_phases = [] ∧ b.cp = 0)

theorem PyNum.lt0_eq0_false (x : PyNum) (h : x.lt0 = true) : x.eq0 = false := by
  cases x with
  | int n =>
    simp only [PyNum.lt0, decide_eq_true_eq] at h
    simp only [PyNum.eq0, decide_eq_false_iff_not]
    omega
  | inf => simp [PyNum.lt0] at h

theorem PyNum.eq0_lt0_false (x : PyNum) (h : x.eq0 = true) : x.lt0 = false := by
  cases x with
  | int n =>
    simp only [PyNum.eq0, decide_eq_true_eq] at h
    simp only [PyNum.lt0, decide_eq_false_iff_not]
    omega
  | inf => simp [PyNum.eq0] at h

theorem Phase.execute_preserves_config (p : Phase) (check : Cond → Bool) :
    (p.execute check).1.conditions = p.conditions ∧
    (p.execute check).1.andifying = p.andifying ∧
    (p.execute check).1.repeatable = p.repeatable := by
  unfold Phase.execute
  split_ifs <;> exact ⟨rfl, rfl, rfl⟩

theorem Phase.execute_fire_shape (p : Phase) (check : Cond → Bool)
    (hcond : phaseBool p.conditions p.andifying check = true)
    (hskip : (!p.repeatable && p.last_iteration) = false) :
    p.execute check =
      (if p.consumption_times.sub1.lt0 = true then
        ({ p with consumption_times := p.consumption_times.sub1,
                  active := false }, false, true)
      else if p.consumption_times.sub1.eq0 = true then
        ({ p with consumption_times := p.consumption_times.sub1,
                  last_iteration := true }, true, true)
      else
        ({ p with consumption_times := p.consumption_times.sub1,
                  last_iteration := true }, true, false)) := by
  unfold Phase.execute
  rw [if_neg (by simp [hcond]), if_neg (by simp [hskip])]

theorem Phase.execute_decrements (q : Phase) (check : Cond → Bool)
    (hcond : phaseBool q.conditions q.andifying check = true)
    (hrep : q.repeatable = true) :
    (q.execute check).1.consumption_times = q.consumption_times.sub1 := by
  rw [Phase.execute_fire_shape q check hcond (by simp [hrep])]
  split_ifs <;> rfl

theorem Phase.execute_flags (q : Phase) (check : Cond → Bool) (m : Int)
    (hcond : phaseBool q.conditions q.andifying check = true)
    (hrep : q.repeatable = true)
    (hct : q.consumption_times = .int m) :
    (q.execute check).2.1 = decide (1 ≤ m) ∧
    (q.execute check).2.2 = decide (m ≤ 1) := by
  rw [Phase.execute_fire_shape q check hcond (by simp [hrep]), hct]
  simp only [PyNum.sub1, PyNum.lt0, PyNum.eq0]
  by_cases h1 : m - 1 < 0
  · rw [if_pos (by simpa using h1)]
    constructor <;> simp <;> omega
  · by_cases h2 : m - 1 = 0
    · rw [if_neg (by simpa using h1), if_pos (by simpa using h2)]
      constructor <;> simp <;> omega
    · rw [if_neg (by simpa using h1), if_neg (by simpa using h2)]
      constructor <;> simp <;> omega

/-- C1: on a condition-true tick not skipped by the non-repeatable rule,
`Phase.__execute` decrements the budget and then: a negative budget raises
`FinalRepException` (the `PhaseComplete` signal) without running the
effect; a budget of exactly zero runs the effect once more, sets
`last_iteration` and raises; a still-positive budget runs the effect and
leaves the phase armed, with no signal. -/
theorem Phase.execute_fire_trichotomy (p : Phase) (check : Cond → Bool)
    (hcond : phaseBool p.conditions p.andifying check = true)
    (hskip : (!p.repeatable && p.last_iteration) = false) :
    ((p.execute check).1.consumption_times = p.consumption_times.sub1) ∧
    (p.consumption_times.sub1.lt0 = true →
      (p.execute check).2.1 = false ∧ (p.execute check).2.2 = true) ∧
    (p.consumption_times.sub1.eq0 = true →
      (p.execute check).2.1 = true ∧ (p.execute check).2.2 = true ∧
      (p.execute check).1.last_iteration = true) ∧
    (p.consumption_times.sub1.lt0 = false →
      p.consumption_times.sub1.eq0 = false →
      (p.execute check).2.1 = true ∧ (p.execute check).2.2 = false ∧
      (p.execute check).1.active = p.active) := by
  rw [Phase.execute_fire_shape p check hcond hskip]
  refine ⟨?_, ?_, ?_, ?_⟩
  · split_ifs <;> rfl
  · intro h
    rw [if_pos h]
    exact ⟨rfl, rfl⟩
  · intro h
    rw [if_neg (by simp [PyNum.eq0_lt0_false _ h]), if_pos h]
    exact ⟨rfl, rfl, rfl⟩
  · intro h1 h2
    rw [if_neg (by simp [h1]), if_neg (by simp [h2])]
    exact ⟨rfl, rfl, rfl⟩

/-- Witness for C1 at the parsed scenario phase with key `k` pressed. -/
theorem Phase.execute_fire_trichotomy_witness :
    phaseBool pC2.conditions pC2.andifying chkK = true ∧
    (!pC2.repeatable && pC2.last_iteration) = false ∧
    (pC2.execute chkK).1.consumption_times = pC2.consumption_times.sub1 :=
  ⟨by decide, by decide,
   (Phase.execute_fire_trichotomy pC2 chkK (by decide) (by decide)).1⟩

/-- C10: a condition-false tick changes nothing but the `last_iteration`
flag (which it clears): the budget is untouched, the effect does not run,
and no completion signal is raised. -/
theorem Phase.execute_condFalse_frame (p : Phase) (check : Cond → Bool)
    (hcond : phaseBool p.conditions p.andifying check = false) :
    p.execute check = ({ p with last_iteration := false }, false, false) := by
  unfold Phase.execute
  rw [hcond]
  simp

/-- Witness for C10: a fired one-shot phase on a tick with no input. -/
theorem Phase.execute_condFalse_frame_witness :
    phaseBool pOneShotFired.conditions pOneShotFired.andifying chkFalse = false ∧
    pOneShotFired.execute chkFalse =
      ({ pOneShotFired with last_iteration := false }, false, false) :=
  ⟨by decide, Phase.execute_condFalse_frame pOneShotFired chkFalse (by decide)⟩

/-- C3 counterexample: a non-repeatable phase fires on tick 1, the
condition goes false on tick 2 (clearing `last_iteration`), and the phase
fires AGAIN on tick 3 with no intervening `init_phase` — refuting "once
fired, every subsequent tick is a Skip until `init_phase()`". -/
theorem Phase.oneShot_refires_without_init :
    (pOneShot.execute chkTrue).2.1 = true ∧
    (pOneShot.execute chkTrue).1.last_iteration = true ∧
    ¬ ((((pOneShot.execute chkTrue).1.execute chkFalse).1.execute
          chkTrue)).2.1 = false := by decide

/-- C3 amended: a non-repeatable phase whose `last_iteration` flag is set
skips every condition-true tick (no effect, no signal, no state change);
the flag is cleared — re-arming the phase — by any condition-false tick,
not only by `init_phase()` (which in fact leaves the flag alone). -/
theorem Phase.oneShot_skip_and_clear (p : Phase) (check : Cond → Bool) :
    (p.repeatable = false → p.last_iteration = true →
      phaseBool p.conditions p.andifying check = true →
      p.execute check = (p, false, false)) ∧
    (phaseBool p.conditions p.andifying check = false →
      (p.execute check).1.last_iteration = false ∧
      (p.execute check).2.1 = false ∧ (p.execute check).2.2 = false) := by
  constructor
  · intro h1 h2 h3
    unfold Phase.execute
    rw [h3, h1, h2]
    simp
  · intro h
    unfold Phase.execute
    rw [h]
    simp

/-- Witness for C3 (amended): both conjuncts at the fired one-shot phase. -/
theorem Phase.oneShot_skip_and_clear_witness :
    pOneShotFired.execute chkTrue = (pOneShotFired, false, false) ∧
    (pOneShotFired.execute chkFalse).1.last_iteration = false :=
  ⟨(Phase.oneShot_skip_and_clear pOneShotFired chkTrue).1 rfl rfl (by decide),
   ((Phase.oneShot_skip_and_clear pOneShotFired chkFalse).2 (by decide)).1⟩

/-- C4 counterexample: `init_phase` does NOT clear `last_iteration`: on a
phase whose flag is set, the flag is still set after `init_phase()`,
refuting "clears the last_iteration_reached flag (sets it to false)". -/
theorem Phase.init_phase_keeps_flag :
    pOneShotFired.last_iteration = true ∧
    ¬ pOneShotFired.init_phase.last_iteration = false ∧
    pOneShotFired.init_phase.consumption_times = .int 5 := by decide

/-- C4 amended: `init_phase()` resets the remaining budget to the
originally configured value `__CT` and changes nothing else — in
particular `last_iteration` is left as it was, and the configured
conditions, combinator, effect and repeatability are unchanged. -/
theorem Phase.init_phase_spec (p : Phase) :
    p.init_phase.consumption_times = p.CT ∧
    p.init_phase.conditions = p.conditions ∧
    p.init_phase.andifying = p.andifying ∧
    p.init_phase.output = p.output ∧
    p.init_phase.repeatable = p.repeatable ∧
    p.init_phase.last_iteration = p.last_iteration ∧
    p.init_phase.CT = p.CT ∧
    p.init_phase.active = p.active := by
  simp [Phase.init_phase]

/-- C7 counterexample: `read_header` DOES raise — `query.split()[0]` is an
uncaught `IndexError` on the empty string and on whitespace-only strings,
refuting "never raises an exception on any input string". -/
theorem read_header_raises_on_empty :
    read_header (chars "") = .error .indexError ∧
    read_header (chars " \n  ") = .error .indexError := by decide

/-- C7 amended: on every input with at least one whitespace-separated
token, `read_header` never raises: it returns the leading integer when the
first token parses as an integer and the `float('inf')` unlimited sentinel
otherwise; on a tokenless input (empty or whitespace-only) it raises
`IndexError`. -/
theorem read_header_token_spec (s t : Str) (ts : List Str)
    (h : pySplitWs s = t :: ts) :
    (∀ n : Int, pyInt t = some n → read_header s = .ok (.int n)) ∧
    (pyInt t = none → read_header s = .ok .inf) := by
  constructor
  · intro n hn
    simp only [read_header, h, hn]
  · intro hn
    simp only [read_header, h, hn]

/-- Witness for C7 (amended) at a concrete integer-headed query. -/
theorem read_header_token_spec_witness :
    pySplitWs (chars "3 T") = [chars "3", chars "T"] ∧
    read_header (chars "3 T") = .ok (.int 3) :=
  ⟨by decide,
   (read_header_token_spec (chars "3 T") (chars "3") [chars "T"]
     (by decide)).1 3 (by decide)⟩

theorem BoardState.initCurrent_frame (b : BoardState) :
    b.initCurrent.1.cp = b.cp ∧ b.initCurrent.1.turn = b.turn ∧
    b.initCurrent.1.sides = b.sides ∧ b.initCurrent.1.pieces = b.pieces ∧
    b.initCurrent.1.game_phases.length = b.game_phases.length := by
  unfold BoardState.initCurrent
  cases h : b.game_phases.get? b.cp <;> simp

/-- C5 counterexample: phases `[P0, P1]`, sides `[A, B] = [1, 2]` with side
1 active.  After both phases complete once (two `end_phase` calls) the
index returns to 0 but `turn` is still 1, not 2: the code indexes `sides`
by the current turn VALUE (`sides[(turn + 1) % len(sides)] = sides[0] = 1`),
so the turn does not flip to B as claimed. -/
theorem end_phase_turn_value_indexing :
    (bSides12.end_phase.1.end_phase).1.cp = 0 ∧
    (bSides12.end_phase.1.end_phase).1.turn = some 1 ∧
    ¬ (bSides12.end_phase.1.end_phase).1.turn = some 2 := by decide

/-- C5 amended: with phases `[P0, P1]` and sides `[s0, s1]`, `end_phase()`
increments the index; from index 1 it wraps to 0 and sets
`turn = sides[(turn + 1) % 2]`, using the current turn VALUE as the index
base — which is next-in-round-robin only when each side's value equals its
position, e.g. sides `[0, 1]`: there, after both phases complete once, the
turn flips from 0 to 1 and the index returns to 0. -/
theorem end_phase_two_phase_spec (b : BoardState) (s0 s1 t : Int)
    (hl : b.game_phases.length = 2) (hs : b.sides = [s0, s1])
    (ht : b.turn = some t) :
    (b.cp = 0 → b.end_phase.1.cp = 1 ∧ b.end_phase.1.turn = some t) ∧
    (b.cp = 1 → b.end_phase.1.cp = 0 ∧
      b.end_phase.1.turn =
        some (([s0, s1].getD ((t + 1) % (2 : Int)).toNat 0))) ∧
    ((bSides01cp1.end_phase).1.cp = 0 ∧
     (bSides01cp1.end_phase).1.turn = some 1) := by
  refine ⟨?_, ?_, by decide⟩
  · intro hcp
    have hb : b.end_phase = BoardState.initCurrent { b with cp := 1 } := by
      unfold BoardState.end_phase
      rw [hcp, hl]
      simp
    rw [hb]
    refine ⟨?_, ?_⟩
    · exact (BoardState.initCurrent_frame _).1
    · rw [(BoardState.initCurrent_frame _).2.1, ht]
  · intro hcp
    have hb : b.end_phase =
        BoardState.initCurrent
          { b with
              cp := 0
              turn := some ([s0, s1].getD ((t + 1) % (2 : Int)).toNat 0) } := by
      unfold BoardState.end_phase
      rw [hcp, hl, ht, hs]
      simp
    rw [hb]
    refine ⟨?_, ?_⟩
    · exact (BoardState.initCurrent_frame _).1
    · rw [(BoardState.initCurrent_frame _).2.1]

/-- Witness for C5 (amended): the wrap step from index 1 with sides
`[0, 1]` and turn 0, whose round-robin result is side 1. -/
theorem end_phase_two_phase_spec_witness :
    (bSides01cp1.end_phase.1.cp = 0 ∧
     bSides01cp1.end_phase.1.turn =
       some ((([0, 1] : List Int).getD (((0 : Int) + 1) % (2 : Int)).toNat 0))) ∧
    ((([0, 1] : List Int).getD (((0 : Int) + 1) % (2 : Int)).toNat 0) = 1) :=
  ⟨(end_phase_two_phase_spec bSides01cp1 0 1 0 rfl rfl rfl).2.1 rfl, by decide⟩

/-- C6 (code bug): `resolve` is an unimplemented TODO stub returning
`True` for every query and board, so the query referencing `PEACE[9]`
against a two-piece board does NOT register as the inert null phase:
`from_query` builds a live phase (one KEY condition, budget 2, unlike
`Phase.null`'s zero conditions and zero budget), and its unresolved piece
reference instead surfaces as an `IndexError` at effect-execution time. -/
theorem from_query_piece9_not_null :
    resolve qC6 boardTwoPieces = true ∧
    (Phase.from_query qC6 boardTwoPieces).map Phase.conditions =
      .ok [(chars "KEY", .str (chars "k"))] ∧
    (Phase.from_query qC6 boardTwoPieces).map Phase.CT = .ok (.int 2) ∧
    Phase.null.conditions = [] ∧
    Phase.null.CT = .int 0 ∧
    (boardTwoPieces.add_phase qC6).2 = none ∧
    (boardTwoPieces.add_phase qC6).1.game_phases.length = 1 ∧
    (runEffect (.pyExec (chars "BOARD.pieces[9].move(BOARD.UP)"))
      boardTwoPieces).2 = some .indexError := by decide

/-- C2 counterexample: driving the scenario board ("2 T KEY k ->
PEACE[0].move(UP)", one piece at row 4, key `k` held) gives row 3 after
tick 1 and row 2 after tick 2 as claimed — but `end_phase` is invoked
during tick 2 (the budget-zero fire raises on the same tick as the second
effect), NOT during tick 3, and on tick 3 the re-initialised phase fires
again, moving the piece to row 1.  The `f` variant of the same query form
diverges too: parsed non-repeatable, it fires on tick 1 only and then
neither fires nor signals on ticks 2 and 3 (the non-repeatable skip rule,
phase.py:33-34), so it does not fire `n = 2` times before completion. -/
theorem query2_scenario_tick3_diverges :
    bC2.rowAfter chkK 1 = 3 ∧
    bC2.rowAfter chkK 2 = 2 ∧
    bC2.endPhaseOnTick chkK 2 = true ∧
    bC2.endPhaseOnTick chkK 3 = false ∧
    bC2.rowAfter chkK 3 = 1 ∧
    ¬ (bC2.endPhaseOnTick chkK 3 = true ∧ bC2.rowAfter chkK 3 = 2) ∧
    (Phase.from_query qC2f (BoardState.start [] [] none)).map Phase.repeatable
      = .ok false ∧
    pC2f.firedOn chkK 0 = true ∧
    pC2f.firedOn chkK 1 = false ∧ pC2f.raisedOn chkK 1 = false ∧
    pC2f.firedOn chkK 2 = false ∧ pC2f.raisedOn chkK 2 = false := by
  decide

theorem Phase.execute_skip (p : Phase) (check : Cond → Bool)
    (hcond : phaseBool p.conditions p.andifying check = true)
    (hrep : p.repeatable = false) (hlast : p.last_iteration = true) :
    p.execute check = (p, false, false) := by
  unfold Phase.execute
  rw [hcond, hrep, hlast]
  simp

theorem Phase.iter_fire_state (check : Cond → Bool) (p : Phase) (b : Int)
    (hrep : p.repeatable = true)
    (hcond : phaseBool p.conditions p.andifying check = true)
    (hct : p.consumption_times = .int b) :
    ∀ i : Nat,
      (p.iter check i).consumption_times = .int (b - i) ∧
      (p.iter check i).conditions = p.conditions ∧
      (p.iter check i).andifying = p.andifying ∧
      (p.iter check i).repeatable = true := by
  intro i
  induction i with
  | zero =>
    refine ⟨?_, rfl, rfl, hrep⟩
    simpa [Phase.iter] using hct
  | succ n ih =>
    obtain ⟨h1, h2, h3, h4⟩ := ih
    have hcond2 : phaseBool (p.iter check n).conditions
        (p.iter check n).andifying check = true := by
      rw [h2, h3]; exact hcond
    have hpres := Phase.execute_preserves_config (p.iter check n) check
    have hdec := Phase.execute_decrements (p.iter check n) check hcond2 h4
    refine ⟨?_, ?_, ?_, ?_⟩
    · show ((p.iter check n).execute check).1.consumption_times = _
      rw [hdec, h1]
      simp only [PyNum.sub1]
      congr 1
      push_cast
      ring
    · show ((p.iter check n).execute check).1.conditions = _
      rw [hpres.1, h2]
    · show ((p.iter check n).execute check).1.andifying = _
      rw [hpres.2.1, h3]
    · show ((p.iter check n).execute check).1.repeatable = _
      rw [hpres.2.2, h4]

/-- C2 amended: for a phase parsed from `"<n> <f|t> KEY <k> -> ..."` with
finite budget `n ≥ 1` and its condition true on every tick: with flag `t`
(repeatable), the effect runs on exactly the first `n` ticks and the
`PhaseComplete` signal is raised on tick `n` itself — the same tick as the
`n`-th effect run, not on tick `n+1` — and on tick `n+1` no further effect
runs (the signal is raised again with no effect); with flag `f`
(non-repeatable) and `n ≥ 2`, the effect runs only on tick 1 and every
later tick is a skip with no signal, so the phase never completes while
the condition stays true; with flag `f` and `n = 1`, the single effect run
and the signal both happen on tick 1.  In the concrete scenario
(`"2 T KEY k -> PEACE[0].move(UP)"`, one piece at row 4, `k` held on ticks
1,2,3) the row becomes 3 after tick 1 and 2 after tick 2, `end_phase` is
invoked during tick 2, and on tick 3 the scheduler's re-initialised phase
fires once more, leaving row 1. -/
theorem query_budget_fires_exactly_n (q : Str) (bd : BoardState) (p : Phase)
    (n : Nat) (check : Cond → Bool)
    (hq : Phase.from_query q bd = .ok p)
    (hct : p.consumption_times = .int n)
    (hcond : phaseBool p.conditions p.andifying check = true)
    (hn : 0 < n) :
    (p.repeatable = true →
      (∀ i, i < n → p.firedOn check i = true) ∧
      (∀ i, i + 1 < n → p.raisedOn check i = false) ∧
      p.raisedOn check (n - 1) = true ∧
      p.firedOn check n = false ∧
      p.raisedOn check n = true) ∧
    (p.repeatable = false → p.last_iteration = false → 2 ≤ n →
      p.firedOn check 0 = true ∧ p.raisedOn check 0 = false ∧
      (∀ i, 1 ≤ i → p.firedOn check i = false ∧ p.raisedOn check i = false)) ∧
    (p.repeatable = false → p.last_iteration = false → n = 1 →
      p.firedOn check 0 = true ∧ p.raisedOn check 0 = true) ∧
    (bC2.rowAfter chkK 1 = 3 ∧ bC2.rowAfter chkK 2 = 2 ∧
     bC2.endPhaseOnTick chkK 2 = true ∧ bC2.endPhaseOnTick chkK 3 = false ∧
     bC2.rowAfter chkK 3 = 1) := by
  refine ⟨?_, ?_, ?_, by decide⟩
  · intro hrep
    have hstate := Phase.iter_fire_state check p n hrep hcond hct
    have hflags : ∀ i : Nat,
        p.firedOn check i = decide (1 ≤ (n : Int) - i) ∧
        p.raisedOn check i = decide ((n : Int) - i ≤ 1) := by
      intro i
      obtain ⟨h1, h2, h3, h4⟩ := hstate i
      have hcond2 : phaseBool (p.iter check i).conditions
          (p.iter check i).andifying check = true := by
        rw [h2, h3]; exact hcond
      exact Phase.execute_flags (p.iter check i) check ((n : Int) - i) hcond2 h4 h1
    refine ⟨?_, ?_, ?_, ?_, ?_⟩
    · intro i hi
      rw [(hflags i).1]
      simp only [decide_eq_true_eq]
      omega
    · intro i hi
      rw [(hflags i).2]
      simp only [decide_eq_false_iff_not]
      omega
    · rw [(hflags (n - 1)).2]
      simp only [decide_eq_true_eq]
      omega
    · rw [(hflags n).1]
      simp only [decide_eq_false_iff_not]
      omega
    · rw [(hflags n).2]
      simp only [decide_eq_true_eq]
      omega
  · intro hrep hlast hn2
    have hskip0 : (!p.repeatable && p.last_iteration) = false := by
      rw [hrep, hlast]
      rfl
    have h0 := Phase.execute_fire_shape p check hcond hskip0
    rw [hct] at h0
    have hlt : ¬ ((PyNum.int (n : Int)).sub1.lt0 = true) := by
      simp only [PyNum.sub1, PyNum.lt0, decide_eq_true_eq]
      omega
    have heq : ¬ ((PyNum.int (n : Int)).sub1.eq0 = true) := by
      simp only [PyNum.sub1, PyNum.eq0, decide_eq_true_eq]
      omega
    rw [if_neg hlt, if_neg heq] at h0
    have hpres := Phase.execute_preserves_config p check
    have hc1 : phaseBool (p.execute check).1.conditions
        (p.execute check).1.andifying check = true := by
      rw [hpres.1, hpres.2.1]
      exact hcond
    have hr1 : (p.execute check).1.repeatable = false := by
      rw [hpres.2.2]
      exact hrep
    have hl1 : (p.execute check).1.last_iteration = true := by
      rw [h0]
    have hskip1 := Phase.execute_skip (p.execute check).1 check hc1 hr1 hl1
    have hiter : ∀ j : Nat, Phase.iter check p (j + 1) = (p.execute check).1 := by
      intro j
      induction j with
      | zero => rfl
      | succ k ih =>
        show ((Phase.iter check p (k + 1)).execute check).1 = _
        rw [ih, hskip1]
    refine ⟨?_, ?_, ?_⟩
    · unfold Phase.firedOn
      rw [show Phase.iter check p 0 = p from rfl, h0]
    · unfold Phase.raisedOn
      rw [show Phase.iter check p 0 = p from rfl, h0]
    · intro i hi
      obtain ⟨j, rfl⟩ : ∃ j, i = j + 1 := ⟨i - 1, by omega⟩
      constructor
      · unfold Phase.firedOn
        rw [hiter j, hskip1]
      · unfold Phase.raisedOn
        rw [hiter j, hskip1]
  · intro hrep hlast hn1
    subst hn1
    have hskip0 : (!p.repeatable && p.last_iteration) = false := by
      rw [hrep, hlast]
      rfl
    have h0 := Phase.execute_fire_shape p check hcond hskip0
    rw [hct] at h0
    rw [if_neg (by decide), if_pos (by decide)] at h0
    constructor
    · unfold Phase.firedOn
      rw [show Phase.iter check p 0 = p from rfl, h0]
    · unfold Phase.raisedOn
      rw [show Phase.iter check p 0 = p from rfl, h0]

/-- Witness for C2 (amended): the parsed `t` and `f` scenario queries with
budget 2, exercising both repeatability branches. -/
theorem query_budget_fires_exactly_n_witness :
    Phase.from_query qC2 (BoardState.start [] [] none) = .ok pC2 ∧
    pC2.firedOn chkK 0 = true ∧
    pC2.raisedOn chkK 1 = true ∧
    pC2.firedOn chkK 2 = false ∧
    Phase.from_query qC2f (BoardState.start [] [] none) = .ok pC2f ∧
    pC2f.firedOn chkK 0 = true ∧
    pC2f.raisedOn chkK 0 = false ∧
    pC2f.firedOn chkK 7 = false ∧
    pC2f.raisedOn chkK 7 = false :=
  ⟨by decide,
   ((query_budget_fires_exactly_n qC2 (BoardState.start [] [] none) pC2 2 chkK
      (by decide) (by decide) (by decide) (by decide)).1 rfl).1 0 (by decide),
   ((query_budget_fires_exactly_n qC2 (BoardState.start [] [] none) pC2 2 chkK
      (by decide) (by decide) (by decide) (by decide)).1 rfl).2.2.1,
   ((query_budget_fires_exactly_n qC2 (BoardState.start [] [] none) pC2 2 chkK
      (by decide) (by decide) (by decide) (by decide)).1 rfl).2.2.2.1,
   by decide,
   ((query_budget_fires_exactly_n qC2f (BoardState.start [] [] none) pC2f 2 chkK
      (by decide) (by decide) (by decide) (by decide)).2.1 rfl rfl (by decide)).1,
   ((query_budget_fires_exactly_n qC2f (BoardState.start [] [] none) pC2f 2 chkK
      (by decide) (by decide) (by decide) (by decide)).2.1 rfl rfl (by decide)).2.1,
   (((query_budget_fires_exactly_n qC2f (BoardState.start [] [] none) pC2f 2 chkK
      (by decide) (by decide) (by decide) (by decide)).2.1 rfl rfl (by decide)).2.2 7
      (by decide)).1,
   (((query_budget_fires_exactly_n qC2f (BoardState.start [] [] none) pC2f 2 chkK
      (by decide) (by decide) (by decide) (by decide)).2.1 rfl rfl (by decide)).2.2 7
      (by decide)).2⟩

theorem splitOnSubFuel_ne_nil (sep : Str) (fuel : Nat) (s : Str) :
    splitOnSubFuel sep fuel s ≠ [] := by
  cases fuel with
  | zero => simp [splitOnSubFuel]
  | succ f =>
    unfold splitOnSubFuel
    cases findSub sep s <;> simp

theorem splitOnSub_gt1_iff_occurs (sep s : Str) :
    decide ((splitOnSub sep s).length > 1) = occursSub sep s := by
  unfold splitOnSub occursSub splitOnSubFuel
  cases h : findSub sep s with
  | none => simp
  | some i =>
    have hne := splitOnSubFuel_ne_nil sep s.length (s.drop (i + sep.length))
    simp only [Option.isSome_some, List.length_cons, decide_eq_true_eq]
    have : splitOnSubFuel sep s.length (s.drop (i + sep.length)) ≠ [] := hne
    have hlen : 0 < (splitOnSubFuel sep s.length (s.drop (i + sep.length))).length :=
      List.length_pos.mpr this
    omega

theorem isAndQuery_eq_occurs (q : Str) :
    isAndQuery q = occursSub (chars "&&") (condSection q) := by
  unfold isAndQuery
  exact splitOnSub_gt1_iff_occurs _ _

theorem parseTerm_ok_of_two (t k v : Str)
    (h : pySplitWs (pyStripAll t) = [k, v]) :
    parseTerm t = .ok (k, match pyInt v with
                          | some n => InpVal.int n
                          | none => InpVal.str v) := by
  unfold parseTerm
  rw [h]

theorem parseTerm_err_kind (t : Str) (e : PyErr)
    (h : parseTerm t = .error e) : e = .valueError := by
  unfold parseTerm at h
  split at h
  · exact absurd h (by simp)
  · cases h
    rfl

theorem parseTerm_err_of_arity (t : Str)
    (h : (pySplitWs (pyStripAll t)).length ≠ 2) :
    parseTerm t = .error .valueError := by
  unfold parseTerm
  split
  · next k v heq => exact absurd (by rw [heq]; rfl) h
  · rfl

theorem parseTerms_ok_spec (ts : List Str) (cs : List (Str × InpVal))
    (h : parseTerms ts = .ok cs) :
    cs.length = ts.length ∧
    (∀ i t, ts.get? i = some t →
      ∀ k v, pySplitWs (pyStripAll t) = [k, v] →
        cs.get? i = some (k, match pyInt v with
                             | some n => InpVal.int n
                             | none => InpVal.str v)) := by
  induction ts generalizing cs with
  | nil =>
    unfold parseTerms at h
    cases h
    exact ⟨rfl, by intro i t hit; simp at hit⟩
  | cons t0 rest ih =>
    unfold parseTerms at h
    cases hp : parseTerm t0 with
    | error e => rw [hp] at h; simp at h
    | ok c =>
      rw [hp] at h
      cases hr : parseTerms rest with
      | error e => rw [hr] at h; simp [Except.map] at h
      | ok cs0 =>
        rw [hr] at h
        simp only [Except.map, Except.ok.injEq] at h
        obtain ⟨hlen, hspec⟩ := ih cs0 hr
        subst h
        constructor
        · simp [hlen]
        · intro i t hit k v hkv
          cases i with
          | zero =>
            simp only [List.get?_cons_zero, Option.some.injEq] at hit
            subst hit
            have h2 := parseTerm_ok_of_two t0 k v hkv
            rw [hp] at h2
            cases h2
            rfl
          | succ j =>
            simp only [List.get?_cons_succ] at hit ⊢
            exact hspec j t hit k v hkv

theorem parseTerms_err_of_bad (ts : List Str) (t : Str)
    (hmem : t ∈ ts) (hbad : (pySplitWs (pyStripAll t)).length ≠ 2) :
    parseTerms ts = .error .valueError := by
  induction ts with
  | nil => exact absurd hmem (by simp)
  | cons t0 rest ih =>
    unfold parseTerms
    rcases List.mem_cons.mp hmem with heq | hmem2
    · subst heq
      rw [parseTerm_err_of_arity t hbad]
    · cases hp : parseTerm t0 with
      | error e => rw [parseTerm_err_kind t0 e hp]
      | ok c => rw [ih hmem2]; rfl

/-- C8: whenever `read_input` succeeds, AND-mode was selected exactly when
the condition section contains `&&` (so with both `&&` and `||` present,
AND wins and `||` stays as literal text inside the `&&`-chunks); the
conditions correspond one-to-one to the chunk terms, each term having
split into exactly two whitespace tokens whose value token is converted by
`int(...)` when possible.  And whenever any chunk term does not split into
exactly two tokens (on a query whose header tokenises), `read_input`
raises `ValueError`. -/
theorem read_input_mode_and_arity (q : Str) :
    (∀ conds andf, read_input q = .ok (conds, andf) →
      (andf = occursSub (chars "&&") (condSection q)) ∧
      conds.length = (supportTerms q).length ∧
      (∀ i t, (supportTerms q).get? i = some t →
        ∀ k v, pySplitWs (pyStripAll t) = [k, v] →
          conds.get? i = some (k, match pyInt v with
                                  | some n => InpVal.int n
                                  | none => InpVal.str v))) ∧
    (pySplitWs (firstSection q) ≠ [] →
      ∀ t, t ∈ supportTerms q → (pySplitWs (pyStripAll t)).length ≠ 2 →
        read_input q = .error .valueError) := by
  constructor
  · intro conds andf h
    unfold read_input at h
    cases hf : pySplitWs (firstSection q) with
    | nil => rw [hf] at h; exact absurd h (by simp)
    | cons a rest =>
      rw [hf] at h
      cases hp : parseTerms (supportTerms q) with
      | error e => rw [hp] at h; simp [Except.map] at h
      | ok cs =>
        rw [hp] at h
        simp only [Except.map, Except.ok.injEq, Prod.mk.injEq] at h
        obtain ⟨hcs, handf⟩ := h
        obtain ⟨hlen, hspec⟩ := parseTerms_ok_spec _ _ hp
        refine ⟨?_, ?_, ?_⟩
        · rw [← handf, isAndQuery_eq_occurs]
        · rw [← hcs]; exact hlen
        · intro i t hit k v hkv
          rw [← hcs]
          exact hspec i t hit k v hkv
  · intro hne t hmem hbad
    unfold read_input
    cases hf : pySplitWs (firstSection q) with
    | nil => exact absurd hf hne
    | cons a rest =>
      rw [parseTerms_err_of_bad (supportTerms q) t hmem hbad]
      rfl

/-- Witness for C8: the AND-mode query parses with an integer-converted
value and AND selected; the one-token term raises `ValueError`. -/
theorem read_input_mode_and_arity_witness :
    read_input qAnd =
      .ok ([(chars "KEY", .int 7), (chars "MOUSE", .str (chars "left"))], true) ∧
    (true = occursSub (chars "&&") (condSection qAnd)) ∧
    read_input qBadTerm = .error .valueError :=
  ⟨by decide,
   ((read_input_mode_and_arity qAnd).1
      [(chars "KEY", .int 7), (chars "MOUSE", .str (chars "left"))] true
      (by decide)).1,
   (read_input_mode_and_arity qBadTerm).2 (by decide) (chars " KEY ")
     (by decide) (by decide)⟩


theorem runEffect_frame (e : Effect) (b : BoardState) :
    (runEffect e b).1.cp = b.cp ∧
    (runEffect e b).1.game_phases = b.game_phases := by
  cases e with
  | noop => exact ⟨rfl, rfl⟩
  | pyExec txt =>
    unfold runEffect
    dsimp only
    cases h : parseMoveStmt txt with
    | none => exact ⟨rfl, rfl⟩
    | some id_ =>
      obtain ⟨i, d⟩ := id_
      dsimp only
      cases h2 : b.pieces.get? i with
      | none => exact ⟨rfl, rfl⟩
      | some pc => exact ⟨rfl, rfl⟩

theorem end_phase_cp_len (b : BoardState) :
    b.end_phase.1.cp =
      (if b.cp + 1 ≥ b.game_phases.length then 0 else b.cp + 1) ∧
    b.end_phase.1.game_phases.length = b.game_phases.length := by
  unfold BoardState.end_phase
  by_cases hge : b.cp + 1 ≥ b.game_phases.length
  · rw [if_pos hge, if_pos hge]
    cases ht : b.turn with
    | none => exact ⟨rfl, rfl⟩
    | some t =>
      cases hs : b.sides with
      | nil => exact ⟨rfl, rfl⟩
      | cons s0 ss =>
        exact ⟨(BoardState.initCurrent_frame _).1,
               (BoardState.initCurrent_frame _).2.2.2.2⟩
  · rw [if_neg hge, if_neg hge]
    exact ⟨(BoardState.initCurrent_frame _).1,
           (BoardState.initCurrent_frame _).2.2.2.2⟩

theorem end_phase_schedInv (b : BoardState) : schedInv b.end_phase.1 := by
  have h := end_phase_cp_len b
  unfold schedInv
  rcases Nat.eq_zero_or_pos b.game_phases.length with hz | hpos
  · refine Or.inr ⟨List.length_eq_zero.mp (h.2.trans hz), ?_⟩
    rw [h.1, if_pos (by omega)]
  · left
    rw [h.1, h.2]
    by_cases hge : b.cp + 1 ≥ b.game_phases.length
    · rw [if_pos hge]; exact hpos
    · rw [if_neg hge]; omega

theorem setPhase_schedInv (b : BoardState) (p : Phase)
    (h : schedInv b) : schedInv (b.setPhase p) := by
  unfold schedInv at h ⊢
  unfold BoardState.setPhase
  simpa using h

theorem runEffect_schedInv (e : Effect) (b : BoardState)
    (h : schedInv b) : schedInv (runEffect e b).1 := by
  have hf := runEffect_frame e b
  unfold schedInv at h ⊢
  rw [hf.1, hf.2]
  exact h

theorem finishTick_schedInv (bp : BoardState × Option PyErr) (raised : Bool)
    (h : schedInv bp.1) : schedInv (BoardState.finishTick bp raised).1 := by
  unfold BoardState.finishTick
  split
  · exact h
  · split
    · exact end_phase_schedInv _
    · exact h

theorem execute_schedInv (b : BoardState) (check : Cond → Bool)
    (h : schedInv b) : schedInv (b.execute check).1 := by
  unfold BoardState.execute
  split
  · exact h
  · split
    · exact h
    · apply finishTick_schedInv
      split
      · exact runEffect_schedInv _ _ (setPhase_schedInv _ _ h)
      · exact setPhase_schedInv _ _ h

theorem add_phase_schedInv (b : BoardState) (q : Str)
    (h : schedInv b) : schedInv (b.add_phase q).1 := by
  unfold BoardState.add_phase
  cases hq : Phase.from_query q b with
  | error e => exact h
  | ok p =>
    unfold schedInv at h ⊢
    rcases h with h | ⟨h1, h2⟩
    · refine Or.inl ?_
      simp only [List.length_append, List.length_cons, List.length_nil]
      omega
    · exact Or.inl (by simp [h1, h2])

theorem sched_ops_schedInv (ops : List SchedOp) (b : BoardState)
    (h : schedInv b) : schedInv (ops.foldl SchedOp.apply b) := by
  induction ops generalizing b with
  | nil => exact h
  | cons op rest ih =>
    apply ih
    cases op with
    | add q => exact add_phase_schedInv b q h
    | exec check => exact execute_schedInv b check h
    | endp => exact end_phase_schedInv b

/-- C9: from a freshly constructed board (any pieces / sides / turn, no
phases, index 0), after any sequence of `add_phase`, `execute` and
`end_phase` calls the current-phase index addresses the phase list, or the
phase list is (still) empty and `execute` is a no-op: it returns the state
unchanged, invokes no `end_phase` and raises nothing. -/
theorem scheduler_index_invariant (ps : List Piece) (ss : List Int)
    (t0 : Option Int) (ops : List SchedOp) :
    (ops.foldl SchedOp.apply (BoardState.start ps ss t0)).cp <
        (ops.foldl SchedOp.apply (BoardState.start ps ss t0)).game_phases.length ∨
      ((ops.foldl SchedOp.apply (BoardState.start ps ss t0)).game_phases = [] ∧
       ∀ check, (ops.foldl SchedOp.apply (BoardState.start ps ss t0)).execute check =
         (ops.foldl SchedOp.apply (BoardState.start ps ss t0), false, none)) := by
  have h := sched_ops_schedInv ops (BoardState.start ps ss t0)
    (Or.inr ⟨rfl, rfl⟩)
  rcases h with h | ⟨h1, _⟩
  · exact Or.inl h
  · refine Or.inr ⟨h1, fun check => ?_⟩
    unfold BoardState.execute
    rw [if_pos (by simp [h1])]
